import Mathlib

/-!
Shallow embedding of the reminder system's job lifecycle engine
(Das-R10/Reminder-system): job store rows and their mutations (db.js),
the executor's claim protocol and per-job processing
(services/jobExecutorService.js), the scheduler (runScheduler),
the plan catalog (plans.js) and the direct job-creation path
(services/tenantService.js).

Modelling conventions:
- timestamps are integers (minutes since epoch); `NOW()` is a `now` parameter;
  dates are civil-day numbers, `daysFromCivil` converts a calendar date;
  the scheduler's `setUTCHours(0,0,0,0)` normalization puts a job at minute
  `1440 * day`.
- SQL NULL / JS null on text fields is `Option String`; JS truthiness of a
  text field (`null`, `undefined` and `""` are falsy) is `truthy`.
- the jobs table's nullable `scheduled_at` is `Option Int` (direct jobs are
  inserted without one).
- channels are the enum `Channel`; the row-level SQL updates in db.js become
  functions `Job → Job`.
-/

namespace Reminder

inductive Channel : Type
  | email
  | sms
  | whatsapp
deriving DecidableEq, Repr

inductive JobStatus : Type
  | pending
  | queued
  | sent
  | permanent_failed
deriving DecidableEq, Repr

/-- One row of the `jobs` table (db.js `CREATE TABLE jobs`). -/
structure Job : Type where
  tenant_id : Nat
  customer_id : Option Nat
  rule_id : Option Nat
  channel : Channel
  recipient : Option String
  message : Option String
  scheduled_at : Option Int
  status : JobStatus
  attempts : Nat
  retry_count : Nat
  last_error : Option String
  provider_msg_id : Option String
deriving DecidableEq, Repr

/-- JS truthiness of a nullable text field: null and the empty string are falsy. -/
def truthy : Option String → Bool
  | none => false
  | some s => s != ""

/-- db.js `createJob`: INSERT with the given fields; `status`, `attempts`,
`retry_count` take their column defaults (`'pending'`, 0, 0); `recipient`
is `recipient || null`; `message`, `last_error`, `provider_msg_id` are NULL. -/
def createJob (tenant_id : Nat) (customer_id rule_id : Option Nat)
    (channel : Channel) (scheduled_at : Int) (recipient : Option String) : Job :=
  { tenant_id := tenant_id
    customer_id := customer_id
    rule_id := rule_id
    channel := channel
    recipient := recipient
    message := none
    scheduled_at := some scheduled_at
    status := JobStatus.pending
    attempts := 0
    retry_count := 0
    last_error := none
    provider_msg_id := none }

/-- db.js `markJobSent`: `UPDATE jobs SET status='sent', provider_msg_id=$2`. -/
def markJobSent (j : Job) (pmid : String) : Job :=
  { j with status := JobStatus.sent, provider_msg_id := some pmid }

/-- db.js `markJobFailed`:
`UPDATE jobs SET status='permanent_failed', attempts=attempts+1, last_error=$2`. -/
def markJobFailed (j : Job) (err : String) : Job :=
  { j with status := JobStatus.permanent_failed
           attempts := j.attempts + 1
           last_error := some err }

/-- db.js `rescheduleJob`: `scheduled_at = NOW() + delay minutes`,
`retry_count = COALESCE(retry_count,0)+1` (the column is a non-null Nat here,
so the COALESCE is the identity), `attempts = attempts+1`, `status='pending'`,
`last_error=$3`. -/
def rescheduleJob (now : Int) (j : Job) (delayMinutes : Int) (err : String) : Job :=
  { j with scheduled_at := some (now + delayMinutes)
           retry_count := j.retry_count + 1
           attempts := j.attempts + 1
           status := JobStatus.pending
           last_error := some err }

/-! ## Plan catalog (plans.js) -/

/-- A plan entry of plans.js. Single-channel plans (`CHANNEL_PLANS`) have
`channel = some c` and a `quota`; combo bundles (`COMBO_PLANS`) have
`channel = none`, `quota = 0`, a `channels` list and per-channel `quotas`. -/
structure PlanDef : Type where
  channel : Option Channel
  quota : Nat
  channels : List Channel
  quotas : List (Channel × Nat)
  price : Nat
deriving DecidableEq, Repr

/-- plans.js `getChannelPlan`: `CHANNEL_PLANS[planId] || COMBO_PLANS[planId] || null`. -/
def getChannelPlan : String → Option PlanDef
  | "email_free" => some ⟨some Channel.email, 500, [], [], 0⟩
  | "email_starter" => some ⟨some Channel.email, 5000, [], [], 499⟩
  | "email_pro" => some ⟨some Channel.email, 25000, [], [], 1499⟩
  | "sms_starter" => some ⟨some Channel.sms, 1000, [], [], 599⟩
  | "sms_pro" => some ⟨some Channel.sms, 5000, [], [], 1999⟩
  | "whatsapp_starter" => some ⟨some Channel.whatsapp, 1000, [], [], 799⟩
  | "whatsapp_pro" => some ⟨some Channel.whatsapp, 5000, [], [], 2499⟩
  | "combo_sms_whatsapp" =>
      some ⟨none, 0, [Channel.sms, Channel.whatsapp],
            [(Channel.sms, 1000), (Channel.whatsapp, 1000)], 1199⟩
  | "combo_all" =>
      some ⟨none, 0, [Channel.email, Channel.sms, Channel.whatsapp],
            [(Channel.email, 5000), (Channel.sms, 1000), (Channel.whatsapp, 1000)], 2499⟩
  | _ => none

/-- `plan.quotas[channel]` of a combo plan (association-list lookup),
`none` when absent. -/
def quotasLookup (quotas : List (Channel × Nat)) (ch : Channel) : Option Nat :=
  (quotas.find? fun p => decide (p.1 = ch)).map Prod.snd

/-- plans.js `getEnabledChannels`: walks the tenant's `active_plans`, adding a
single-channel plan's `channel` and a combo's `channels` to a set (an
insertion-ordered duplicate-free list here); unknown plan ids are skipped. -/
def getEnabledChannels (activePlans : List String) : List Channel :=
  activePlans.foldl
    (fun acc pid =>
      match getChannelPlan pid with
      | none => acc
      | some p =>
          let acc1 :=
            match p.channel with
            | some c => if c ∈ acc then acc else acc ++ [c]
            | none => acc
          p.channels.foldl (fun a c => if c ∈ a then a else a ++ [c]) acc1)
    []

/-- Is `pat` a leading segment of `s` (on character lists)? -/
def charsPrefixedBy : List Char → List Char → Bool
  | _, [] => true
  | [], _ :: _ => false
  | c :: s, d :: t => c == d && charsPrefixedBy s t

/-- JS `String.prototype.startsWith`, made kernel-computable. -/
def strStartsWith (s pat : String) : Bool :=
  charsPrefixedBy s.data pat.data

/-- plans.js `getChannelQuota`: starts at 0; for each known active plan adds
`plan.quota` when `plan.channel === channel` and adds `plan.quotas[channel]`
when present and truthy (a 0 entry is falsy in JS, so it is skipped — which
adds nothing either way); finally, for email, when no active plan id starts
with `"email"`, the accumulated value is overwritten with the always-active
`email_free` quota of 500. -/
def getChannelQuota (activePlans : List String) (channel : Channel) : Nat :=
  let q :=
    activePlans.foldl
      (fun acc pid =>
        match getChannelPlan pid with
        | none => acc
        | some p =>
            let acc1 := if p.channel = some channel then acc + p.quota else acc
            match quotasLookup p.quotas channel with
            | some qc => if qc ≠ 0 then acc1 + qc else acc1
            | none => acc1)
      0
  if channel = Channel.email ∧ (activePlans.any fun p => strStartsWith p "email") = false
  then 500 else q

/-- The quota resolution as the spec words it: the plain sum, over all of the
tenant's active plan identifiers, of the quota each plan grants for the
channel (single-channel plans contribute `quota`, combos their per-channel
entry, unknown ids contribute nothing). Used to compare `getChannelQuota`
against the spec's description. -/
def quotaSumSpec (activePlans : List String) (channel : Channel) : Nat :=
  (activePlans.map fun pid =>
    match getChannelPlan pid with
    | none => 0
    | some p =>
        (if p.channel = some channel then p.quota else 0) +
          (quotasLookup p.quotas channel).getD 0).sum

/-! ## Executor per-job processing (services/jobExecutorService.js) -/

def MAX_RETRIES : Nat := 3

/-- Outcome of `sendNotification` for one job: a provider message id, or a
thrown error message. -/
inductive DispatchResult : Type
  | ok (providerMsgId : String)
  | error (msg : String)
deriving DecidableEq, Repr

/-- The per-job body of `runJobExecutor`'s loop: if the job's channel is not
among the tenant's enabled channels, `markJobFailed` immediately; otherwise
dispatch — on success `markJobSent` (usage accounting touches `channel_usage`,
not the job row), on failure with `retries = job.retry_count` either
`rescheduleJob` by `2^(retries+1)` minutes when `retries < MAX_RETRIES`,
or `markJobFailed`. -/
def processJob (now : Int) (activePlans : List String) (dispatch : DispatchResult)
    (j : Job) : Job :=
  if j.channel ∉ getEnabledChannels activePlans then
    markJobFailed j "Channel not enabled on tenant plan"
  else
    match dispatch with
    | DispatchResult.ok pmid => markJobSent j pmid
    | DispatchResult.error e =>
        let retries := j.retry_count
        if retries < MAX_RETRIES then
          rescheduleJob now j (2 ^ (retries + 1)) e
        else
          markJobFailed j e

/-! ## The claim protocol (db.js `getPendingJobs` / the claim transaction in
services/jobExecutorService.js)

The SQL claim is one atomic statement: select the ids of up to `limit` rows
with `status = 'pending' AND scheduled_at <= NOW()`, ordered by `scheduled_at`
ascending (`FOR UPDATE SKIP LOCKED` making the select-and-update atomic
against concurrent claimers), and set those rows to `status = 'queued'`.
The job store is a list of (id, row) pairs; since the database serializes the
atomic claim statements, two concurrent claims are modelled as the two
possible sequential compositions of `runClaim` steps. -/

/-- A stable insertion sort by a Bool ordering (the model of `ORDER BY`). -/
def insertBy {α : Type} (le : α → α → Bool) (a : α) : List α → List α
  | [] => [a]
  | b :: l => if le a b then a :: b :: l else b :: insertBy le a l

/-- Sort a list by a Bool ordering (the model of `ORDER BY`). -/
def sortBy {α : Type} (le : α → α → Bool) : List α → List α
  | [] => []
  | a :: l => insertBy le a (sortBy le l)

/-- `scheduled_at <= NOW()` on a nullable column: NULL compares to false. -/
def dueAt (sched : Option Int) (now : Int) : Bool :=
  match sched with
  | some t => decide (t ≤ now)
  | none => false

/-- Ordering used by `ORDER BY scheduled_at` on the selected (all non-NULL,
since they passed `dueAt`) rows; NULL sorts last as in Postgres ASC. -/
def schedLe (a b : Nat × Job) : Bool :=
  match a.2.scheduled_at, b.2.scheduled_at with
  | some x, some y => decide (x ≤ y)
  | some _, none => true
  | none, some _ => false
  | none, none => true

/-- The inner SELECT of the claim: ids of up to `limit` due pending rows,
ordered by `scheduled_at`. -/
def claimSelect (now : Int) (limit : Nat) (store : List (Nat × Job)) : List Nat :=
  (((sortBy schedLe
      (store.filter fun p =>
        decide (p.2.status = JobStatus.pending) && dueAt p.2.scheduled_at now)).take
    limit).map Prod.fst)

/-- The UPDATE of the claim: every selected row is set to `status = 'queued'`. -/
def claimApply (ids : List Nat) (store : List (Nat × Job)) : List (Nat × Job) :=
  store.map fun p =>
    if p.1 ∈ ids then (p.1, { p.2 with status := JobStatus.queued }) else p

/-- One atomic execution of the claim statement: the claimed ids together
with the updated store. -/
def runClaim (now : Int) (limit : Nat) (store : List (Nat × Job)) :
    List Nat × List (Nat × Job) :=
  let ids := claimSelect now limit store
  (ids, claimApply ids store)

/-! ## Scheduler (runScheduler in schedulerService / app.js) -/

/-- Civil date → days since 1970-01-01 (proleptic Gregorian), the classic
days-from-civil algorithm; used to express the calendar arithmetic that JS
`Date.setDate(getDate() - days)` performs. -/
def daysFromCivil (y : Int) (m : Int) (d : Int) : Int :=
  let y' := if m ≤ 2 then y - 1 else y
  let era := (if 0 ≤ y' then y' else y' - 399) / 400
  let yoe := y' - era * 400
  let mp := (m + 9) % 12
  let doy := (153 * mp + 2) / 5 + d - 1
  let doe := yoe * 365 + yoe / 4 - yoe / 100 + doy
  era * 146097 + doe - 719468

/-- One row of the `customers` table. `expiry_date` is a nullable civil-day
number; contact fields are nullable text. -/
structure Customer : Type where
  id : Nat
  tenant_id : Nat
  customer_id : String
  first_name : Option String
  last_name : Option String
  email : Option String
  phone : Option String
  expiry_date : Option Int
deriving DecidableEq, Repr

/-- One row of the `rules` table. -/
structure Rule : Type where
  id : Nat
  tenant_id : Nat
  lead_days : List Int
  channels : List Channel
  template : Option String
  is_active : Bool
deriving DecidableEq, Repr

/-- db.js `jobExists`: is there a row with this
(tenant_id, customer_id, rule_id, channel, scheduled_at)? The scheduler always
queries it with concrete (non-NULL) customer and rule ids. -/
def jobExists (store : List Job) (tenant_id : Nat) (customer_id rule_id : Nat)
    (channel : Channel) (scheduled_at : Int) : Bool :=
  store.any fun j =>
    decide (j.tenant_id = tenant_id ∧ j.customer_id = some customer_id ∧
      j.rule_id = some rule_id ∧ j.channel = channel ∧
      j.scheduled_at = some scheduled_at)

/-- The scheduler's contact check, exactly as written:
`(channel === 'email' && customer.email) || (channel === 'sms' && customer.phone)`.
Note there is no `whatsapp` case. -/
def hasContact (channel : Channel) (c : Customer) : Bool :=
  (decide (channel = Channel.email) && truthy c.email) ||
    (decide (channel = Channel.sms) && truthy c.phone)

/-- `scheduled_at` computed by the scheduler: the expiry day minus the lead
days, normalized to midnight (`setUTCHours(0,0,0,0)`), in minutes. -/
def schedAt (expiryDay : Int) (days : Int) : Int :=
  1440 * (expiryDay - days)

/-- The body of the scheduler's innermost loop for one
(rule, customer, lead-day, channel): skip when the contact check fails, skip
when `jobExists`, otherwise `createJob` (inserted with no recipient — the
executor later joins the customer row for the address). -/
def schedStep (r : Rule) (c : Customer) (days : Int) (ch : Channel)
    (store : List Job) : List Job :=
  if hasContact ch c then
    let at_ := schedAt (c.expiry_date.getD 0) days
    if jobExists store r.tenant_id c.id r.id ch at_ then store
    else store ++ [createJob r.tenant_id (some c.id) (some r.id) ch at_ none]
  else store

/-- The scheduler's per-rule customer query:
`SELECT * FROM customers WHERE tenant_id=$1 AND expiry_date IS NOT NULL`. -/
def customersFor (customers : List Customer) (tenant_id : Nat) : List Customer :=
  customers.filter fun c => decide (c.tenant_id = tenant_id) && c.expiry_date.isSome

/-- `runScheduler` over a fixed data set: for each active rule
(`getActiveRules`), for each of the tenant's customers with an expiry date,
for each lead day, for each of the rule's channels, run `schedStep`. -/
def runScheduler (rules : List Rule) (customers : List Customer)
    (store : List Job) : List Job :=
  (rules.filter fun r => r.is_active).foldl
    (fun st r =>
      (customersFor customers r.tenant_id).foldl
        (fun st c =>
          r.lead_days.foldl
            (fun st d => r.channels.foldl (fun st ch => schedStep r c d ch st) st)
            st)
        st)
    store

/-- The scheduler's iteration space flattened into one list, in loop order. -/
def schedCands (rules : List Rule) (customers : List Customer) :
    List (Rule × Customer × Int × Channel) :=
  (rules.filter fun r => r.is_active).flatMap fun r =>
    (customersFor customers r.tenant_id).flatMap fun c =>
      r.lead_days.flatMap fun d =>
        r.channels.map fun ch => (r, c, d, ch)

/-- `schedStep` applied to one flattened candidate. -/
def schedStepC (st : List Job) (cand : Rule × Customer × Int × Channel) :
    List Job :=
  schedStep cand.1 cand.2.1 cand.2.2.1 cand.2.2.2 st

/-! ## Direct job creation (services/tenantService.js `createJobWithLimitCheck`)
and channel usage (db.js) -/

/-- One row of the `tenants` table (the fields the core reads). -/
structure Tenant : Type where
  id : Nat
  active_plans : List String
deriving DecidableEq, Repr

/-- One row of the `channel_usage` table. -/
structure UsageRow : Type where
  tenant_id : Nat
  channel : Channel
  month : String
  used : Nat
  quota : Nat
deriving DecidableEq, Repr

/-- The `(tenant_id, channel, month)` key match of `channel_usage`. -/
def usageKeyMatch (tenant_id : Nat) (ch : Channel) (month : String)
    (r : UsageRow) : Bool :=
  decide (r.tenant_id = tenant_id ∧ r.channel = ch ∧ r.month = month)

/-- db.js `incrementChannelUsage`: upsert on `(tenant_id, channel, month)` —
insert `used = 1` with the quota snapshot, or `used = used + 1` updating the
snapshot. -/
def incrementChannelUsage (tenant_id : Nat) (ch : Channel) (quota : Nat)
    (month : String) (usage : List UsageRow) : List UsageRow :=
  if usage.any (usageKeyMatch tenant_id ch month) then
    usage.map fun r =>
      if usageKeyMatch tenant_id ch month r then
        { r with used := r.used + 1, quota := quota }
      else r
  else
    usage ++ [{ tenant_id := tenant_id, channel := ch, month := month,
                used := 1, quota := quota }]

/-- db.js `getChannelUsage`: the tenant's usage rows for the current month. -/
def getChannelUsage (tenant_id : Nat) (month : String)
    (usage : List UsageRow) : List UsageRow :=
  usage.filter fun r => decide (r.tenant_id = tenant_id ∧ r.month = month)

/-- The distinguishable errors thrown by `createJobWithLimitCheck`
(`err.code` values `TENANT_NOT_FOUND`, `CHANNEL_NOT_ENABLED`,
`LIMIT_EXCEEDED`). -/
inductive CreateJobError : Type
  | tenantNotFound
  | channelNotEnabled
  | limitExceeded
deriving DecidableEq, Repr

/-- The `used` value `createJobWithLimitCheck` reads: the first of this
month's usage rows for the tenant whose channel matches, or 0 when none
(`usageRow?.used || 0`). -/
def usedFor (tenantId : Nat) (ch : Channel) (month : String)
    (usage : List UsageRow) : Nat :=
  match (getChannelUsage tenantId month usage).find?
      (fun r => decide (r.channel = ch)) with
  | some r => r.used
  | none => 0

/-- The row inserted by the direct path:
`INSERT INTO jobs (tenant_id, channel, recipient, message, status) VALUES
(..., 'sent')`; every other column takes its default / NULL. -/
def directJob (tenant_id : Nat) (ch : Channel) (recipient message : String) :
    Job :=
  { tenant_id := tenant_id
    customer_id := none
    rule_id := none
    channel := ch
    recipient := some recipient
    message := some message
    scheduled_at := none
    status := JobStatus.sent
    attempts := 0
    retry_count := 0
    last_error := none
    provider_msg_id := none }

/-- tenantService.js `createJobWithLimitCheck`: look the tenant up (throw
`TENANT_NOT_FOUND` if absent); resolve the channel quota from the tenant's
active plans (throw `CHANNEL_NOT_ENABLED` when it is 0); read this month's
`used` for the channel (0 when no row); throw `LIMIT_EXCEEDED` when
`used >= quota`; otherwise insert a `'sent'` job and increment the usage
counter. Returns the updated jobs and usage tables. -/
def createJobWithLimitCheck (tenants : List Tenant) (month : String)
    (usage : List UsageRow) (jobs : List Job) (tenantId : Nat) (ch : Channel)
    (recipient message : String) :
    Except CreateJobError (List Job × List UsageRow) :=
  match tenants.find? fun t => decide (t.id = tenantId) with
  | none => Except.error CreateJobError.tenantNotFound
  | some t =>
      let quota := getChannelQuota t.active_plans ch
      if quota = 0 then Except.error CreateJobError.channelNotEnabled
      else
        let used := usedFor tenantId ch month usage
        if used ≥ quota then Except.error CreateJobError.limitExceeded
        else
          Except.ok (jobs ++ [directJob tenantId ch recipient message],
            incrementChannelUsage tenantId ch quota month usage)

/-! ## Helper lemmas -/

theorem mem_insertBy {α : Type} (le : α → α → Bool) (a x : α) (l : List α) :
    x ∈ insertBy le a l ↔ x = a ∨ x ∈ l := by
  induction l with
  | nil => simp [insertBy]
  | cons b t ih =>
      simp only [insertBy]
      split
      · simp
      · simp only [List.mem_cons, ih]
        tauto

theorem mem_sortBy {α : Type} (le : α → α → Bool) (x : α) (l : List α) :
    x ∈ sortBy le l ↔ x ∈ l := by
  induction l with
  | nil => simp [sortBy]
  | cons a t ih => simp [sortBy, mem_insertBy, ih]

/-- Any id returned by `claimSelect` belongs to a row of the store whose
status is `pending` (and which is due). -/
theorem claimSelect_sound (now : Int) (limit : Nat) (store : List (Nat × Job))
    (i : Nat) (hi : i ∈ claimSelect now limit store) :
    ∃ p : Nat × Job, p ∈ store ∧ p.1 = i ∧ p.2.status = JobStatus.pending := by
  unfold claimSelect at hi
  obtain ⟨p, hp, hfst⟩ := List.mem_map.mp hi
  have hsort := List.mem_of_mem_take hp
  have hfil := (mem_sortBy _ _ _).mp hsort
  have hmem := List.mem_filter.mp hfil
  refine ⟨p, hmem.1, hfst, ?_⟩
  have := hmem.2
  simp only [Bool.and_eq_true, decide_eq_true_eq] at this
  exact this.1

/-- Applying a claim leaves every row's id in place and turns every claimed
row's status to `queued`. -/
theorem claimApply_mem (ids : List Nat) (store : List (Nat × Job))
    (p : Nat × Job) (hp : p ∈ claimApply ids store) (hin : p.1 ∈ ids) :
    p.2.status = JobStatus.queued := by
  unfold claimApply at hp
  obtain ⟨q, hq, hfq⟩ := List.mem_map.mp hp
  by_cases h : q.1 ∈ ids
  · simp only [h, if_pos] at hfq
    subst hfq
    rfl
  · simp only [h, if_neg, not_false_iff] at hfq
    subst hfq
    exact absurd hin h

/-- Claim C1: the claim operation is a single atomic SQL statement
(`UPDATE … WHERE id IN (SELECT … FOR UPDATE SKIP LOCKED) RETURNING id`), so
any two concurrent claims execute as two serialized `runClaim` steps. For
every store and any two claim parameters, the id sets claimed by the first
step and by the second step (run on the first step's resulting store) are
disjoint: no job row is transitioned to `queued` by both. -/
theorem claim_ops_disjoint (now now' : Int) (limit limit' : Nat)
    (store : List (Nat × Job)) :
    List.Disjoint (runClaim now limit store).1
      (runClaim now' limit' (runClaim now limit store).2).1 := by
  intro i h1 h2
  have h2' : i ∈ claimSelect now' limit'
      (claimApply (claimSelect now limit store) store) := h2
  obtain ⟨p, hpmem, hpfst, hpstat⟩ :=
    claimSelect_sound now' limit' _ i h2'
  have h1' : p.1 ∈ claimSelect now limit store := by
    rw [hpfst]; exact h1
  have := claimApply_mem (claimSelect now limit store) store p hpmem h1'
  rw [hpstat] at this
  exact JobStatus.noConfusion this

/-! ## Counter and frame properties of the row mutations -/

/-- Claim C9: every job row starts with `attempts = 0` and `retry_count = 0`
(both the scheduler's `createJob` and the direct path's insert use the column
defaults), `rescheduleJob` increments both by exactly one, `markJobFailed`
increments `attempts` only, `markJobSent` changes neither — so each mutation
preserves the invariant `retry_count ≤ attempts`. -/
theorem attempts_ge_retry_count_invariant (t : Nat) (cid rid : Option Nat)
    (ch : Channel) (sa : Int) (rc : Option String) (recip msg : String)
    (j : Job) (now delay : Int) (e pm : String)
    (hinv : j.retry_count ≤ j.attempts) :
    (createJob t cid rid ch sa rc).attempts = 0 ∧
    (createJob t cid rid ch sa rc).retry_count = 0 ∧
    (directJob t ch recip msg).attempts = 0 ∧
    (directJob t ch recip msg).retry_count = 0 ∧
    (rescheduleJob now j delay e).attempts = j.attempts + 1 ∧
    (rescheduleJob now j delay e).retry_count = j.retry_count + 1 ∧
    (markJobFailed j e).attempts = j.attempts + 1 ∧
    (markJobFailed j e).retry_count = j.retry_count ∧
    (markJobSent j pm).attempts = j.attempts ∧
    (markJobSent j pm).retry_count = j.retry_count ∧
    (createJob t cid rid ch sa rc).retry_count ≤ (createJob t cid rid ch sa rc).attempts ∧
    (rescheduleJob now j delay e).retry_count ≤ (rescheduleJob now j delay e).attempts ∧
    (markJobFailed j e).retry_count ≤ (markJobFailed j e).attempts ∧
    (markJobSent j pm).retry_count ≤ (markJobSent j pm).attempts := by
  refine ⟨rfl, rfl, rfl, rfl, rfl, rfl, rfl, rfl, rfl, rfl, ?_, ?_, ?_, ?_⟩
  · exact Nat.le_refl 0
  · exact Nat.succ_le_succ hinv
  · exact Nat.le_succ_of_le hinv
  · exact hinv

/-- Witness for C9 at a concrete job row. -/
theorem attempts_ge_retry_count_invariant_witness :
    (markJobFailed (createJob 1 (some 2) (some 3) Channel.email 0 none) "e").attempts
      = 1 ∧
    (markJobFailed (createJob 1 (some 2) (some 3) Channel.email 0 none) "e").retry_count
      ≤ (markJobFailed (createJob 1 (some 2) (some 3) Channel.email 0 none) "e").attempts := by
  have h := attempts_ge_retry_count_invariant 1 (some 2) (some 3) Channel.email 0
    none "r" "m" (createJob 1 (some 2) (some 3) Channel.email 0 none) 0 2 "e" "p"
    (by decide)
  exact ⟨h.2.2.2.2.2.2.1, h.2.2.2.2.2.2.2.2.2.2.2.2.1⟩

/-- Claim C10: on a successful dispatch the executor's only job-row mutation
is `markJobSent`, which sets `status` to `sent` and the provider message id
and leaves every other field — in particular `attempts`, `retry_count`,
`scheduled_at` and `last_error` — unchanged, so successful dispatches are
never counted in `attempts`. -/
theorem mark_job_sent_frame (j : Job) (pmid : String) (now : Int)
    (plans : List String) (hen : j.channel ∈ getEnabledChannels plans) :
    processJob now plans (DispatchResult.ok pmid) j = markJobSent j pmid ∧
    (markJobSent j pmid).status = JobStatus.sent ∧
    (markJobSent j pmid).provider_msg_id = some pmid ∧
    (markJobSent j pmid).attempts = j.attempts ∧
    (markJobSent j pmid).retry_count = j.retry_count ∧
    (markJobSent j pmid).scheduled_at = j.scheduled_at ∧
    (markJobSent j pmid).last_error = j.last_error ∧
    (markJobSent j pmid).tenant_id = j.tenant_id ∧
    (markJobSent j pmid).customer_id = j.customer_id ∧
    (markJobSent j pmid).rule_id = j.rule_id ∧
    (markJobSent j pmid).channel = j.channel ∧
    (markJobSent j pmid).recipient = j.recipient ∧
    (markJobSent j pmid).message = j.message := by
  refine ⟨?_, rfl, rfl, rfl, rfl, rfl, rfl, rfl, rfl, rfl, rfl, rfl, rfl⟩
  unfold processJob
  rw [if_neg]
  simpa using hen

/-- Witness for C10 at a concrete job row. -/
theorem mark_job_sent_frame_witness :
    processJob 0 ["email_free"] (DispatchResult.ok "sg_1")
        (createJob 1 (some 2) (some 3) Channel.email 0 none)
      = markJobSent (createJob 1 (some 2) (some 3) Channel.email 0 none) "sg_1" :=
  (mark_job_sent_frame (createJob 1 (some 2) (some 3) Channel.email 0 none)
    "sg_1" 0 ["email_free"] (by decide)).1

/-- Claim C3: when a dispatch for an entitled channel fails while retries
remain (`retry_count < MAX_RETRIES`), the executor reschedules the job:
the new `retry_count` is the old one plus one and lies in {1,2,3}, the new
`scheduled_at` is `now + 2 ^ retry_count_new` minutes (so the backoff delay
is 2, 4 or 8 minutes), and the status is set back to `pending`. -/
theorem retry_backoff (now : Int) (plans : List String) (e : String) (j : Job)
    (hen : j.channel ∈ getEnabledChannels plans)
    (hlt : j.retry_count < MAX_RETRIES) :
    (processJob now plans (DispatchResult.error e) j).retry_count
      = j.retry_count + 1 ∧
    (processJob now plans (DispatchResult.error e) j).scheduled_at
      = some (now +
          2 ^ (processJob now plans (DispatchResult.error e) j).retry_count) ∧
    (processJob now plans (DispatchResult.error e) j).status
      = JobStatus.pending ∧
    1 ≤ (processJob now plans (DispatchResult.error e) j).retry_count ∧
    (processJob now plans (DispatchResult.error e) j).retry_count ≤ 3 ∧
    (2 ^ (processJob now plans (DispatchResult.error e) j).retry_count = 2 ∨
      2 ^ (processJob now plans (DispatchResult.error e) j).retry_count = 4 ∨
      2 ^ (processJob now plans (DispatchResult.error e) j).retry_count = 8) := by
  have hproc : processJob now plans (DispatchResult.error e) j
      = rescheduleJob now j (2 ^ (j.retry_count + 1)) e := by
    unfold processJob
    rw [if_neg (by simpa using hen)]
    simp only [if_pos hlt]
  rw [hproc]
  have hrc : (rescheduleJob now j (2 ^ (j.retry_count + 1)) e).retry_count
      = j.retry_count + 1 := rfl
  refine ⟨rfl, ?_, rfl, ?_, ?_, ?_⟩
  · rw [hrc]; rfl
  · rw [hrc]; exact Nat.succ_le_succ (Nat.zero_le _)
  · rw [hrc]; exact Nat.succ_le_of_lt hlt
  · have h3 : j.retry_count = 0 ∨ j.retry_count = 1 ∨ j.retry_count = 2 := by
      have hm := hlt
      unfold MAX_RETRIES at hm
      omega
    rw [hrc]
    rcases h3 with h | h | h <;> rw [h] <;> simp

/-- Witness for C3: a fresh job (retry_count 0) failing dispatch is
rescheduled 2 minutes out with retry_count 1 and status pending. -/
theorem retry_backoff_witness :
    (processJob 100 ["email_free"] (DispatchResult.error "boom")
        (createJob 1 (some 2) (some 3) Channel.email 0 none)).retry_count = 1 ∧
    (processJob 100 ["email_free"] (DispatchResult.error "boom")
        (createJob 1 (some 2) (some 3) Channel.email 0 none)).scheduled_at
      = some 102 ∧
    (processJob 100 ["email_free"] (DispatchResult.error "boom")
        (createJob 1 (some 2) (some 3) Channel.email 0 none)).status
      = JobStatus.pending := by
  have h := retry_backoff 100 ["email_free"] "boom"
    (createJob 1 (some 2) (some 3) Channel.email 0 none) (by decide) (by decide)
  refine ⟨h.1, ?_, h.2.2.1⟩
  rw [h.2.1, h.1]
  rfl

/-! ## Retry exhaustion (claim C2) -/

/-- `n` consecutive claim-and-dispatch rounds whose dispatch fails, applied
to a job (the job is re-claimed each round after `rescheduleJob` sets it back
to `pending`). -/
def iterFail (now : Int) (plans : List String) (e : String) :
    Nat → Job → Job
  | 0, j => j
  | n + 1, j => iterFail now plans e n (processJob now plans (DispatchResult.error e) j)

/-- Counterexample to C2: a freshly created job (retry_count 0) whose
dispatch fails exactly `MAX_RETRIES = 3` times is still `pending` with
`attempts = 3`, not `permanent_failed` — so "permanent_failed iff dispatch
failed exactly 3 times" is false on the code. -/
theorem permanent_failed_after_three_failures_false :
    (iterFail 0 ["email_free"] "err" 3
        (createJob 1 (some 2) (some 3) Channel.email 0 none)).attempts = 3 ∧
    (iterFail 0 ["email_free"] "err" 3
        (createJob 1 (some 2) (some 3) Channel.email 0 none)).status
      = JobStatus.pending ∧
    (iterFail 0 ["email_free"] "err" 3
        (createJob 1 (some 2) (some 3) Channel.email 0 none)).status
      ≠ JobStatus.permanent_failed := by
  refine ⟨by decide, by decide, by decide⟩

/-- Claim C2, amended: with the channel entitled, a failing dispatch makes a
job `permanent_failed` exactly when its `retry_count` has already reached
`MAX_RETRIES = 3` — i.e. on the job's fourth failed dispatch attempt (three
reschedules precede it); the terminal failure still increments `attempts`.
A fresh job therefore is still `pending` after 3 failures and becomes
`permanent_failed` after 4, with `attempts = 4`. (Independently, a job whose
channel is no longer entitled is marked `permanent_failed` without any
dispatch.) -/
theorem permanent_failed_on_fourth_failure (now : Int) (plans : List String)
    (e : String) (j : Job) (hen : j.channel ∈ getEnabledChannels plans) :
    ((processJob now plans (DispatchResult.error e) j).status
        = JobStatus.permanent_failed ↔ MAX_RETRIES ≤ j.retry_count) ∧
    (j.retry_count = MAX_RETRIES →
      (processJob now plans (DispatchResult.error e) j).attempts
        = j.attempts + 1) ∧
    (iterFail 0 ["email_free"] "err" 3
        (createJob 1 (some 2) (some 3) Channel.email 0 none)).status
      = JobStatus.pending ∧
    (iterFail 0 ["email_free"] "err" 4
        (createJob 1 (some 2) (some 3) Channel.email 0 none)).status
      = JobStatus.permanent_failed ∧
    (iterFail 0 ["email_free"] "err" 4
        (createJob 1 (some 2) (some 3) Channel.email 0 none)).attempts = 4 ∧
    (∀ (j2 : Job) (dr : DispatchResult),
      j2.channel ∉ getEnabledChannels plans →
      (processJob now plans dr j2).status = JobStatus.permanent_failed) := by
  have hproc : processJob now plans (DispatchResult.error e) j
      = if j.retry_count < MAX_RETRIES then
          rescheduleJob now j (2 ^ (j.retry_count + 1)) e
        else markJobFailed j e := by
    unfold processJob
    rw [if_neg (by simpa using hen)]
  refine ⟨?hiff, ?hatt, by decide, by decide, by decide, ?hent⟩
  case hent =>
    intro j2 dr hnen
    unfold processJob
    rw [if_pos hnen]
    cases dr <;> rfl
  case hiff =>
    rw [hproc]
    by_cases hr : j.retry_count < MAX_RETRIES
    · rw [if_pos hr]
      constructor
      · intro h
        exact absurd h (by simp [rescheduleJob])
      · intro h
        exact absurd hr (by omega)
    · rw [if_neg hr]
      constructor
      · intro _
        omega
      · intro _
        rfl
  · intro h3
    rw [hproc, if_neg (by omega)]
    rfl

/-- Witness for the amended C2: a job that already failed three times
(retry_count = attempts = 3) becomes `permanent_failed` with `attempts = 4`
on its next (fourth) failed dispatch. -/
theorem permanent_failed_on_fourth_failure_witness :
    (processJob 0 ["email_free"] (DispatchResult.error "err")
        { createJob 1 (some 2) (some 3) Channel.email 0 none with
            retry_count := 3, attempts := 3 }).status
      = JobStatus.permanent_failed ∧
    (processJob 0 ["email_free"] (DispatchResult.error "err")
        { createJob 1 (some 2) (some 3) Channel.email 0 none with
            retry_count := 3, attempts := 3 }).attempts = 4 := by
  have h := permanent_failed_on_fourth_failure 0 ["email_free"] "err"
    { createJob 1 (some 2) (some 3) Channel.email 0 none with
        retry_count := 3, attempts := 3 } (by decide)
  exact ⟨h.1.mpr (by decide), h.2.1 (by decide)⟩

/-! ## Quota resolution (claim C5) -/

/-- One active plan's contribution to the channel quota under the spec's
plain-sum reading. -/
theorem quota_body_eq (ch : Channel) (acc : Nat) (pid : String) :
    (match getChannelPlan pid with
      | none => acc
      | some p =>
          let acc1 := if p.channel = some ch then acc + p.quota else acc
          match quotasLookup p.quotas ch with
          | some qc => if qc ≠ 0 then acc1 + qc else acc1
          | none => acc1) =
      acc + (match getChannelPlan pid with
        | none => 0
        | some p =>
            (if p.channel = some ch then p.quota else 0) +
              (quotasLookup p.quotas ch).getD 0) := by
  cases getChannelPlan pid with
  | none => simp
  | some p =>
      cases hq : quotasLookup p.quotas ch with
      | none => by_cases hc : p.channel = some ch <;> simp [hc, hq]
      | some qc =>
          by_cases hz : qc = 0 <;> by_cases hc : p.channel = some ch <;>
            simp [hc, hq, hz]
          exact add_assoc acc p.quota qc

/-- The accumulating loop of `getChannelQuota` computes the plain sum. -/
theorem quota_foldl_sum (ch : Channel) (plans : List String) :
    ∀ acc : Nat,
      plans.foldl
        (fun acc pid =>
          match getChannelPlan pid with
          | none => acc
          | some p =>
              let acc1 := if p.channel = some ch then acc + p.quota else acc
              match quotasLookup p.quotas ch with
              | some qc => if qc ≠ 0 then acc1 + qc else acc1
              | none => acc1)
        acc = acc + quotaSumSpec plans ch := by
  induction plans with
  | nil => intro acc; simp [quotaSumSpec]
  | cons pid rest ih =>
      intro acc
      simp only [List.foldl_cons]
      rw [ih, quota_body_eq ch acc pid]
      simp [quotaSumSpec]
      omega

/-- Counterexample to C5: for a tenant whose only active plan is the
`combo_all` bundle, the sum of per-plan email quotas is 5000, but
`getChannelQuota` resolves 500 — the `email_free` fallback overwrites the sum
because no active plan identifier starts with `"email"`. -/
theorem quota_not_plain_sum :
    getChannelQuota ["combo_all"] Channel.email = 500 ∧
    quotaSumSpec ["combo_all"] Channel.email = 5000 ∧
    getChannelQuota ["combo_all"] Channel.email
      ≠ quotaSumSpec ["combo_all"] Channel.email := by
  refine ⟨by decide, by decide, by decide⟩

/-- Claim C5, amended: the resolved quota equals the sum, over the tenant's
active plan identifiers, of the quota each plan grants for the channel
(single-channel plans their quota, combos their per-channel entry, unknown
ids nothing) — except that for the email channel, when no active plan
identifier starts with `"email"`, the result is overridden to the
always-active `email_free` quota of 500. -/
theorem quota_sum_with_email_free_default (plans : List String) (ch : Channel) :
    getChannelQuota plans ch =
      if ch = Channel.email ∧ (plans.any fun p => strStartsWith p "email") = false
      then 500 else quotaSumSpec plans ch := by
  by_cases hcond : ch = Channel.email ∧
      (plans.any fun p => strStartsWith p "email") = false
  · simp only [getChannelQuota, if_pos hcond]
  · simp only [getChannelQuota, if_neg hcond]
    simpa using quota_foldl_sum ch plans 0

/-! ## Direct job creation and quota enforcement (claim C6) -/

/-- Reading `used` through `getChannelUsage` + `find?` is the same as finding
the first row matching the full (tenant, channel, month) key. -/
theorem usedFor_eq_find (tenantId : Nat) (ch : Channel) (month : String)
    (usage : List UsageRow) :
    usedFor tenantId ch month usage =
      match usage.find? (usageKeyMatch tenantId ch month) with
      | some r => r.used
      | none => 0 := by
  unfold usedFor getChannelUsage
  rw [List.find?_filter]
  have hpq : (fun r : UsageRow =>
      decide ((decide (r.tenant_id = tenantId ∧ r.month = month)) = true ∧
        (decide (r.channel = ch)) = true)) = usageKeyMatch tenantId ch month := by
    funext r
    simp only [usageKeyMatch, decide_eq_true_eq]
    rw [decide_eq_decide]
    tauto
  rw [hpq]

/-- Incrementing channel usage raises the `used` value subsequently read for
that (tenant, channel, month) by exactly one. -/
theorem usedFor_increment (tenantId : Nat) (ch : Channel) (month : String)
    (usage : List UsageRow) (quota : Nat) :
    usedFor tenantId ch month
        (incrementChannelUsage tenantId ch quota month usage)
      = usedFor tenantId ch month usage + 1 := by
  rw [usedFor_eq_find, usedFor_eq_find]
  unfold incrementChannelUsage
  by_cases hex : usage.any (usageKeyMatch tenantId ch month) = true
  · rw [if_pos hex]
    rw [List.find?_map]
    have hcomp : (usageKeyMatch tenantId ch month ∘ fun r : UsageRow =>
        if usageKeyMatch tenantId ch month r then
          { r with used := r.used + 1, quota := quota }
        else r) = usageKeyMatch tenantId ch month := by
      funext r
      by_cases h : usageKeyMatch tenantId ch month r = true
      · simp only [Function.comp_apply, if_pos h, h]
        simp only [usageKeyMatch, decide_eq_true_eq] at h ⊢
        exact h
      · simp only [Function.comp_apply, if_neg h]
    rw [hcomp]
    obtain ⟨r0, hr0mem, hr0⟩ := List.any_eq_true.mp hex
    have hsome : (usage.find? (usageKeyMatch tenantId ch month)).isSome := by
      rw [List.find?_isSome]
      exact ⟨r0, hr0mem, hr0⟩
    obtain ⟨r1, hr1⟩ := Option.isSome_iff_exists.mp hsome
    have hr1match : usageKeyMatch tenantId ch month r1 = true :=
      List.find?_some hr1
    rw [hr1]
    simp [hr1match]
  · rw [if_neg hex]
    have hnone : usage.find? (usageKeyMatch tenantId ch month) = none := by
      rw [List.find?_eq_none]
      intro x hx hpx
      exact hex (List.any_eq_true.mpr ⟨x, hx, hpx⟩)
    rw [List.find?_append, hnone]
    simp only [Option.none_or]
    have : usageKeyMatch tenantId ch month
        { tenant_id := tenantId, channel := ch, month := month,
          used := 1, quota := quota } = true := by
      simp [usageKeyMatch]
    simp [List.find?, this]

/-- Claim C6: the direct job-creation path raises `TENANT_NOT_FOUND` when the
tenant does not exist; with the tenant found and resolved quota Q and
current-month usage U on the channel, it raises `CHANNEL_NOT_ENABLED` when
Q = 0, succeeds whenever U < Q — appending a `'sent'`-status job and
incrementing the usage counter by one — and raises `LIMIT_EXCEEDED` whenever
U ≥ Q (inserting nothing); the three errors are distinct constructors. -/
theorem direct_job_creation_quota (tenants : List Tenant) (month : String)
    (usage : List UsageRow) (jobs : List Job) (tenantId : Nat) (ch : Channel)
    (recipient message : String) (q : Nat) :
    (tenants.find? (fun t => decide (t.id = tenantId)) = none →
      createJobWithLimitCheck tenants month usage jobs tenantId ch recipient
          message = Except.error CreateJobError.tenantNotFound) ∧
    (∀ t : Tenant, tenants.find? (fun t => decide (t.id = tenantId)) = some t →
      (getChannelQuota t.active_plans ch = 0 →
        createJobWithLimitCheck tenants month usage jobs tenantId ch recipient
            message = Except.error CreateJobError.channelNotEnabled) ∧
      (0 < getChannelQuota t.active_plans ch →
        usedFor tenantId ch month usage < getChannelQuota t.active_plans ch →
        createJobWithLimitCheck tenants month usage jobs tenantId ch recipient
            message = Except.ok
              (jobs ++ [directJob tenantId ch recipient message],
                incrementChannelUsage tenantId ch
                  (getChannelQuota t.active_plans ch) month usage)) ∧
      (0 < getChannelQuota t.active_plans ch →
        getChannelQuota t.active_plans ch ≤ usedFor tenantId ch month usage →
        createJobWithLimitCheck tenants month usage jobs tenantId ch recipient
            message = Except.error CreateJobError.limitExceeded)) ∧
    (directJob tenantId ch recipient message).status = JobStatus.sent ∧
    usedFor tenantId ch month (incrementChannelUsage tenantId ch q month usage)
      = usedFor tenantId ch month usage + 1 := by
  refine ⟨?_, ?_, rfl, usedFor_increment tenantId ch month usage q⟩
  · intro hnone
    unfold createJobWithLimitCheck
    rw [hnone]
  · intro t ht
    refine ⟨?_, ?_, ?_⟩
    · intro hq0
      simp only [createJobWithLimitCheck, ht]
      rw [if_pos hq0]
    · intro hqpos hlt
      simp only [createJobWithLimitCheck, ht]
      rw [if_neg (by omega), if_neg (by omega)]
    · intro hqpos hge
      simp only [createJobWithLimitCheck, ht]
      rw [if_neg (by omega), if_pos (by omega)]

/-- Witness for C6: a tenant on the free email tier (quota 500) with usage
499 succeeds and its usage row moves to 500; the same tenant at usage 500 is
rejected with `LIMIT_EXCEEDED`. -/
theorem direct_job_creation_quota_witness :
    createJobWithLimitCheck [⟨7, ["email_free"]⟩] "2025-10"
        [⟨7, Channel.email, "2025-10", 499, 500⟩] [] 7 Channel.email "a@b" "hi"
      = Except.ok ([directJob 7 Channel.email "a@b" "hi"],
          [⟨7, Channel.email, "2025-10", 500, 500⟩]) ∧
    createJobWithLimitCheck [⟨7, ["email_free"]⟩] "2025-10"
        [⟨7, Channel.email, "2025-10", 500, 500⟩] [] 7 Channel.email "a@b" "hi"
      = Except.error CreateJobError.limitExceeded := by
  constructor
  · have h := direct_job_creation_quota [⟨7, ["email_free"]⟩] "2025-10"
      [⟨7, Channel.email, "2025-10", 499, 500⟩] [] 7 Channel.email "a@b" "hi" 500
    have := (h.2.1 ⟨7, ["email_free"]⟩ (by rfl)).2.1 (by decide) (by decide)
    rw [this]
    rfl
  · have h := direct_job_creation_quota [⟨7, ["email_free"]⟩] "2025-10"
      [⟨7, Channel.email, "2025-10", 500, 500⟩] [] 7 Channel.email "a@b" "hi" 500
    exact (h.2.1 ⟨7, ["email_free"]⟩ (by rfl)).2.2 (by decide) (by decide)

/-! ## Scheduler idempotence (claim C4) -/

/-- The contact check of a flattened candidate. -/
def candContact (cand : Rule × Customer × Int × Channel) : Bool :=
  hasContact cand.2.2.2 cand.2.1

/-- The `scheduled_at` of a flattened candidate. -/
def candKeyAt (cand : Rule × Customer × Int × Channel) : Int :=
  schedAt (cand.2.1.expiry_date.getD 0) cand.2.2.1

/-- `jobExists` at a flattened candidate's uniqueness key. -/
def candExists (st : List Job) (cand : Rule × Customer × Int × Channel) : Bool :=
  jobExists st cand.1.tenant_id cand.2.1.id cand.1.id cand.2.2.2 (candKeyAt cand)

/-- The job `createJob` inserts for a flattened candidate. -/
def candJob (cand : Rule × Customer × Int × Channel) : Job :=
  createJob cand.1.tenant_id (some cand.2.1.id) (some cand.1.id) cand.2.2.2
    (candKeyAt cand) none

theorem schedStepC_eq (st : List Job) (cand : Rule × Customer × Int × Channel) :
    schedStepC st cand =
      if candContact cand then
        if candExists st cand then st else st ++ [candJob cand]
      else st := rfl

theorem candExists_append (st t : List Job)
    (cand : Rule × Customer × Int × Channel) (h : candExists st cand = true) :
    candExists (st ++ t) cand = true := by
  unfold candExists jobExists at h ⊢
  rw [List.any_append, h]
  rfl

theorem candExists_candJob (st : List Job)
    (cand : Rule × Customer × Int × Channel) :
    candExists (st ++ [candJob cand]) cand = true := by
  unfold candExists jobExists
  rw [List.any_append]
  have : (candJob cand).tenant_id = cand.1.tenant_id ∧
      (candJob cand).customer_id = some cand.2.1.id ∧
      (candJob cand).rule_id = some cand.1.id ∧
      (candJob cand).channel = cand.2.2.2 ∧
      (candJob cand).scheduled_at = some (candKeyAt cand) :=
    ⟨rfl, rfl, rfl, rfl, rfl⟩
  simp [this]

theorem candExists_schedStepC (st : List Job)
    (c k : Rule × Customer × Int × Channel) (h : candExists st k = true) :
    candExists (schedStepC st c) k = true := by
  rw [schedStepC_eq]
  by_cases hc : candContact c = true
  · rw [if_pos hc]
    by_cases he : candExists st c = true
    · rw [if_pos he]; exact h
    · rw [if_neg he]; exact candExists_append st _ k h
  · rw [if_neg hc]; exact h

theorem candExists_schedStepC_self (st : List Job)
    (c : Rule × Customer × Int × Channel) (hc : candContact c = true) :
    candExists (schedStepC st c) c = true := by
  rw [schedStepC_eq, if_pos hc]
  by_cases he : candExists st c = true
  · rw [if_pos he]; exact he
  · rw [if_neg he]; exact candExists_candJob st c

theorem schedStepC_append (st : List Job)
    (c : Rule × Customer × Int × Channel) :
    ∃ t, schedStepC st c = st ++ t := by
  rw [schedStepC_eq]
  by_cases hc : candContact c = true
  · rw [if_pos hc]
    by_cases he : candExists st c = true
    · rw [if_pos he]; exact ⟨[], (List.append_nil st).symm⟩
    · rw [if_neg he]; exact ⟨[candJob c], rfl⟩
  · rw [if_neg hc]; exact ⟨[], (List.append_nil st).symm⟩

theorem foldl_schedStepC_mono (cands : List (Rule × Customer × Int × Channel))
    (st : List Job) (k : Rule × Customer × Int × Channel)
    (h : candExists st k = true) :
    candExists (cands.foldl schedStepC st) k = true := by
  induction cands generalizing st with
  | nil => exact h
  | cons c cs ih =>
      rw [List.foldl_cons]
      exact ih (schedStepC st c) (candExists_schedStepC st c k h)

theorem foldl_schedStepC_covers (cands : List (Rule × Customer × Int × Channel))
    (st : List Job) (cand : Rule × Customer × Int × Channel)
    (hmem : cand ∈ cands) (hc : candContact cand = true) :
    candExists (cands.foldl schedStepC st) cand = true := by
  induction cands generalizing st with
  | nil => cases hmem
  | cons c cs ih =>
      rw [List.foldl_cons]
      rcases List.mem_cons.mp hmem with h | h
      · subst h
        exact foldl_schedStepC_mono cs _ _ (candExists_schedStepC_self st _ hc)
      · exact ih (schedStepC st c) h

theorem foldl_schedStepC_fixed (cands : List (Rule × Customer × Int × Channel))
    (st : List Job)
    (hall : ∀ cand ∈ cands, candContact cand = true → candExists st cand = true) :
    cands.foldl schedStepC st = st := by
  induction cands with
  | nil => rfl
  | cons c cs ih =>
      have hstep : schedStepC st c = st := by
        rw [schedStepC_eq]
        by_cases hc : candContact c = true
        · rw [if_pos hc, if_pos (hall c (List.mem_cons_self c cs) hc)]
        · rw [if_neg hc]
      rw [List.foldl_cons, hstep]
      exact ih fun cand hm hcc => hall cand (List.mem_cons_of_mem c hm) hcc

theorem foldl_schedStepC_grows (cands : List (Rule × Customer × Int × Channel))
    (st : List Job) :
    ∃ t, cands.foldl schedStepC st = st ++ t := by
  induction cands generalizing st with
  | nil => exact ⟨[], (List.append_nil st).symm⟩
  | cons c cs ih =>
      obtain ⟨t1, h1⟩ := schedStepC_append st c
      obtain ⟨t2, h2⟩ := ih (schedStepC st c)
      refine ⟨t1 ++ t2, ?_⟩
      rw [List.foldl_cons, h2, h1, List.append_assoc]

theorem foldl_flatMap {α β γ : Type} (g : β → α → β) (f : γ → List α)
    (l : List γ) (init : β) :
    (l.flatMap f).foldl g init = l.foldl (fun s x => (f x).foldl g s) init := by
  induction l generalizing init with
  | nil => rfl
  | cons x xs ih =>
      rw [List.flatMap_cons, List.foldl_append, List.foldl_cons]
      exact ih _

/-- The nested scheduler loops compute the fold of `schedStep` over the
flattened candidate list. -/
theorem runScheduler_eq_foldl (rules : List Rule) (customers : List Customer)
    (store : List Job) :
    runScheduler rules customers store
      = (schedCands rules customers).foldl schedStepC store := by
  unfold runScheduler schedCands
  simp only [foldl_flatMap, List.foldl_map]
  rfl

/-- Claim C4: over a fixed collection of Rules and Customers the Scheduler is
idempotent — a second run over the unchanged data returns the job store of
the first run unchanged (zero new rows) — and a run only appends new rows,
never transitioning or removing existing Job rows. -/
theorem scheduler_idempotent (rules : List Rule) (customers : List Customer)
    (store : List Job) :
    runScheduler rules customers (runScheduler rules customers store)
      = runScheduler rules customers store ∧
    ∃ t, runScheduler rules customers store = store ++ t := by
  constructor
  · rw [runScheduler_eq_foldl rules customers store,
      runScheduler_eq_foldl rules customers _]
    apply foldl_schedStepC_fixed
    intro cand hm hc
    exact foldl_schedStepC_covers _ store cand hm hc
  · rw [runScheduler_eq_foldl]
    exact foldl_schedStepC_grows _ store

/-! ## Recipient resolution in the scheduler (claim C7) -/

/-- A customer with a phone number but no email, expiry day 100. -/
def custC7 : Customer :=
  ⟨3, 1, "CUST-7", none, none, none, some "+911234567890", some 100⟩

/-- An active rule with one lead day and only the whatsapp channel. -/
def ruleC7 : Rule := ⟨2, 1, [1], [Channel.whatsapp], none, true⟩

/-- A customer with an email address, expiry day 100. -/
def custC7e : Customer :=
  ⟨4, 1, "CUST-8", none, none, some "x@y.z", none, some 100⟩

/-- Counterexample to C7: a customer with a non-empty phone number and a rule
whose only channel is whatsapp — the claim says the whatsapp recipient is the
customer's phone, so a Job should be created, but the scheduler's contact
check has no whatsapp case and one run creates no Job at all. -/
theorem whatsapp_contact_skipped :
    truthy custC7.phone = true ∧
    runScheduler [ruleC7] [custC7] [] = [] := by
  refine ⟨by decide, by decide⟩

/-- Claim C7, amended: for each (customer, channel) pair considered by the
Scheduler, the contact used is: email → `customer.email`, sms →
`customer.phone`, and a whatsapp pair is always skipped (the contact check has
no whatsapp case, so whatsapp Jobs are never created regardless of phone);
when the contact field is empty the pair is skipped silently with no Job, and
otherwise a Job is created provided no Job with the same uniqueness key
already exists (an existing key also creates nothing). -/
theorem scheduler_recipient_resolution (r : Rule) (c : Customer) (d : Int)
    (st : List Job) :
    (schedStep r c d Channel.whatsapp st = st) ∧
    (truthy c.email = false → schedStep r c d Channel.email st = st) ∧
    (truthy c.phone = false → schedStep r c d Channel.sms st = st) ∧
    (truthy c.email = true →
      jobExists st r.tenant_id c.id r.id Channel.email
          (schedAt (c.expiry_date.getD 0) d) = false →
      schedStep r c d Channel.email st
        = st ++ [createJob r.tenant_id (some c.id) (some r.id) Channel.email
            (schedAt (c.expiry_date.getD 0) d) none]) ∧
    (truthy c.phone = true →
      jobExists st r.tenant_id c.id r.id Channel.sms
          (schedAt (c.expiry_date.getD 0) d) = false →
      schedStep r c d Channel.sms st
        = st ++ [createJob r.tenant_id (some c.id) (some r.id) Channel.sms
            (schedAt (c.expiry_date.getD 0) d) none]) ∧
    (truthy c.email = true →
      jobExists st r.tenant_id c.id r.id Channel.email
          (schedAt (c.expiry_date.getD 0) d) = true →
      schedStep r c d Channel.email st = st) ∧
    (truthy c.phone = true →
      jobExists st r.tenant_id c.id r.id Channel.sms
          (schedAt (c.expiry_date.getD 0) d) = true →
      schedStep r c d Channel.sms st = st) := by
  refine ⟨?_, ?_, ?_, ?_, ?_, ?_, ?_⟩
  · simp [schedStep, hasContact]
  · intro h; simp [schedStep, hasContact, h]
  · intro h; simp [schedStep, hasContact, h]
  · intro h he; simp [schedStep, hasContact, h, he]
  · intro h he; simp [schedStep, hasContact, h, he]
  · intro h he; simp [schedStep, hasContact, h, he]
  · intro h he; simp [schedStep, hasContact, h, he]

/-- Witness for the amended C7: a customer with an email gets an email Job
created into an empty store. -/
theorem scheduler_recipient_resolution_witness :
    schedStep ruleC7 custC7e 1 Channel.email []
      = [createJob 1 (some 4) (some 2) Channel.email (schedAt 100 1) none] := by
  have h := (scheduler_recipient_resolution ruleC7 custC7e 1 []).2.2.2.1
    (by decide) (by decide)
  simpa using h

/-! ## Scheduler scenario (claim C8) -/

/-- The scenario rule: `lead_days = [30,7,1]`, `channels = [email]`, active. -/
def ruleC8 : Rule := ⟨1, 1, [30, 7, 1], [Channel.email], none, true⟩

/-- The scenario customer: an email address and `expiry_date = 2025-06-30`. -/
def custC8 : Customer :=
  ⟨1, 1, "CUST-1", none, none, some "a@b.com", none,
    some (daysFromCivil 2025 6 30)⟩

/-- Claim C8: for a customer with expiry 2025-06-30 and an active rule with
lead days [30,7,1] on the email channel, one Scheduler run over an empty
store creates exactly 3 Jobs, scheduled at 2025-05-31, 2025-06-23 and
2025-06-29, each at the fixed send time-of-day (midnight UTC, minute
`1440 * day`), and each with status `pending`. -/
theorem scheduler_scenario_three_jobs :
    runScheduler [ruleC8] [custC8] []
      = [createJob 1 (some 1) (some 1) Channel.email
            (1440 * daysFromCivil 2025 5 31) none,
         createJob 1 (some 1) (some 1) Channel.email
            (1440 * daysFromCivil 2025 6 23) none,
         createJob 1 (some 1) (some 1) Channel.email
            (1440 * daysFromCivil 2025 6 29) none] ∧
    (runScheduler [ruleC8] [custC8] []).length = 3 ∧
    (runScheduler [ruleC8] [custC8] []).all
        (fun j => decide (j.status = JobStatus.pending)) = true := by
  refine ⟨by decide, by decide, by decide⟩

end Reminder
